import Mathlib

set_option maxRecDepth 4000000

/-!
Verification of the leave accrual / balance calculation engine of the HR-Portal
repository (src/services/leaveAccrualService.js), via a shallow embedding.

Modelling conventions:
* JavaScript numbers are IEEE binary64 doubles.  Every finite double is a
  dyadic rational; we represent it exactly by `JsNum` (a significand and a
  power-of-two exponent, denoting `sig * 2 ^ exp`) and model each JS
  arithmetic operation as the exact operation followed by `round53`, rounding
  to 53 significant bits (round to nearest, ties to even).  For the
  magnitudes occurring in this service (well inside the normal range, no
  overflow, underflow or NaN) this is exactly binary64 arithmetic.
* JavaScript `Date` values are modelled by `JsDate`: civil fields
  (year, 0-based month, 1-based day, milliseconds past midnight), assuming
  the process runs with a UTC local time zone (so `toISOString` agrees with
  the civil fields and `new Date(y, m, d)` is unaffected by DST).  Date
  comparisons (which JS performs on epoch-millisecond timestamps) are
  modelled by comparing `JsDate.key`, an integer strictly monotone in the
  real timestamp over normalized dates; `getTime()` equality is `key`
  equality.
* Application dates are modelled as `Option JsDate`: `new Date(app.from)`
  plus the `isNaN` check observe either a valid date or nothing.  Employee
  date fields are modelled as `RawDate`, which keeps the distinction the
  code observes between a nullish field (skipped by `??`), a present value
  rejected by `normalizeNullableDate`, and a present value that parses: the
  `??` chains run on the raw values before parsing, so a present but
  unparseable field blocks the fallback to the next field.
* The lowdb handle (`db.read`, `db.write`) is modelled by explicit state
  passing of a `Db` record; `JSON.stringify` equality of two balance objects
  of the computed shape is structural equality (number and date
  serialization are injective on the values that occur here).
-/

/-! ## Exact binary64 arithmetic (dyadic rationals rounded to 53 bits) -/

/-- Fuel-driven binary logarithm on `ℕ`, equal to `Nat.log2` but structurally
recursive so that `decide` can evaluate it. -/
def log2Fuel : Nat → Nat → Nat
  | 0, _ => 0
  | fuel + 1, n => if n ≤ 1 then 0 else log2Fuel fuel (n / 2) + 1

/-- `⌊log₂ n⌋` for positive `n` (and 0 for `n = 0`). -/
def natLog2 (n : Nat) : Nat := log2Fuel n n

/-- A JS number: the exact value `sig * 2 ^ exp`.  Values produced by the
operations below are normalized: `sig` is odd, or `sig = 0 ∧ exp = 0`. -/
structure JsNum where
  sig : Int
  exp : Int
  deriving DecidableEq, Repr

/-- Strip factors of two from the significand (fuel-driven). -/
def stripTwos : Nat → Int → Int → JsNum
  | 0, s, e => ⟨s, e⟩
  | fuel + 1, s, e => if s.emod 2 = 0 then stripTwos fuel (s.ediv 2) (e + 1) else ⟨s, e⟩

/-- Normalize `s * 2 ^ e` into canonical form. -/
def JsNum.mk2 (s e : Int) : JsNum :=
  if s = 0 then ⟨0, 0⟩ else stripTwos s.natAbs s e

/-- The exact rational value of a `JsNum` (for interpretation only). -/
def JsNum.toRat (a : JsNum) : ℚ := (a.sig : ℚ) * (2 : ℚ) ^ a.exp

/-- The integer `n` as a JS number. -/
def JsNum.ofInt (n : Int) : JsNum := JsNum.mk2 n 0

instance (n : Nat) : OfNat JsNum n := ⟨JsNum.ofInt n⟩

/-- Round the exact value `s * 2 ^ e` to 53 significant bits, nearest, ties to
even: binary64 rounding of a dyadic value in the normal range. -/
def round53 (s e : Int) : JsNum :=
  if s = 0 then ⟨0, 0⟩ else
  let a : Nat := s.natAbs
  let k : Nat := natLog2 a
  if k ≤ 52 then JsNum.mk2 s e
  else
    let d : Nat := k - 52
    let q : Nat := a / 2 ^ d
    let r : Nat := a % 2 ^ d
    let half : Nat := 2 ^ (d - 1)
    let m : Nat :=
      if r < half then q
      else if half < r then q + 1
      else if q % 2 = 0 then q else q + 1
    JsNum.mk2 (if s < 0 then -(m : Int) else (m : Int)) (e + (d : Int))

/-- Align two JS numbers to a common exponent, returning integer significands
whose order (and equality) agrees with the order of the exact values. -/
def JsNum.aligned (a b : JsNum) : Int × Int :=
  if a.exp ≤ b.exp then (a.sig, b.sig * 2 ^ (b.exp - a.exp).toNat)
  else (a.sig * 2 ^ (a.exp - b.exp).toNat, b.sig)

/-- `a < b` on exact values. -/
def JsNum.lt (a b : JsNum) : Prop := (JsNum.aligned a b).1 < (JsNum.aligned a b).2

/-- `a ≤ b` on exact values. -/
def JsNum.le (a b : JsNum) : Prop := (JsNum.aligned a b).1 ≤ (JsNum.aligned a b).2

instance (a b : JsNum) : Decidable (JsNum.lt a b) := by
  unfold JsNum.lt; exact inferInstance

instance (a b : JsNum) : Decidable (JsNum.le a b) := by
  unfold JsNum.le; exact inferInstance

/-- JS `x + y` on doubles: exact dyadic sum, then binary64 rounding. -/
def jsAdd (x y : JsNum) : JsNum :=
  if x.exp ≤ y.exp then round53 (x.sig + y.sig * 2 ^ (y.exp - x.exp).toNat) x.exp
  else round53 (x.sig * 2 ^ (x.exp - y.exp).toNat + y.sig) y.exp

/-- JS `x - y` on doubles. -/
def jsSub (x y : JsNum) : JsNum := jsAdd x ⟨-y.sig, y.exp⟩

/-- JS `x * y` on doubles. -/
def jsMul (x y : JsNum) : JsNum := round53 (x.sig * y.sig) (x.exp + y.exp)

/-- Decide whether `n / d ≥ 2 ^ k` for positive naturals `n`, `d`. -/
def ratGeTwoPow (n d : Nat) (k : Int) : Bool :=
  if 0 ≤ k then decide (d * 2 ^ k.toNat ≤ n) else decide (d ≤ n * 2 ^ (-k).toNat)

/-- `⌊log₂ (n / d)⌋` for positive naturals `n`, `d`. -/
def floorLog2Rat (n d : Nat) : Int :=
  let g : Int := (natLog2 n : Int) - (natLog2 d : Int)
  if ratGeTwoPow n d g then g else g - 1

/-- Round the positive rational `(n / d) * 2 ^ shift` to 53 significant bits,
nearest, ties to even. -/
def roundPosRat53 (n d : Nat) (shift : Int) : JsNum :=
  let e : Int := floorLog2Rat n d + shift - 52
  let se : Int := shift - e
  let num : Nat := if 0 ≤ se then n * 2 ^ se.toNat else n
  let den : Nat := if 0 ≤ se then d else d * 2 ^ (-se).toNat
  let q : Nat := num / den
  let r : Nat := num % den
  let m : Nat :=
    if 2 * r < den then q
    else if den < 2 * r then q + 1
    else if q % 2 = 0 then q else q + 1
  JsNum.mk2 (m : Int) e

/-- JS `x / y` on doubles (`y ≠ 0` at every use in this service; the `y = 0`
case is given an arbitrary total value). -/
def jsDiv (x y : JsNum) : JsNum :=
  if x.sig = 0 ∨ y.sig = 0 then ⟨0, 0⟩
  else
    let mag := roundPosRat53 x.sig.natAbs y.sig.natAbs (x.exp - y.exp)
    if (0 ≤ x.sig) = (0 ≤ y.sig) then mag else ⟨-mag.sig, mag.exp⟩

/-- JS `x || y` for numbers: `y` when `x` is falsy (`0`; `NaN` never arises
for the finite values modelled here), else `x`. -/
def jsOr (x y : JsNum) : JsNum := if x.sig = 0 then y else x

/-- JS `Math.round`: the integer closest to the argument, ties toward `+∞`
(exact on the spec level; the result is exactly representable here). -/
def mathRound (x : JsNum) : JsNum :=
  if 0 ≤ x.exp then x
  else
    let t : Nat := (-x.exp).toNat
    JsNum.mk2 ((2 * x.sig + (2 ^ t : Int)).ediv (2 ^ (t + 1) : Int)) 0

/-! ## JS dates (UTC time zone) -/

/-- A JS `Date` in civil form: `year`, 0-based `month` (as `getMonth`),
1-based `day` (as `getDate`), and milliseconds past midnight. -/
structure JsDate where
  year : Int
  month : Int
  day : Int
  msOfDay : Int
  deriving DecidableEq, Repr

/-- Leap year test (Gregorian). -/
def isLeapYear (y : Int) : Prop :=
  (y.emod 4 = 0 ∧ ¬y.emod 100 = 0) ∨ y.emod 400 = 0

instance (y : Int) : Decidable (isLeapYear y) := by
  unfold isLeapYear; exact inferInstance

/-- Number of days of the 0-based month `m` of year `y` (31 for the
out-of-range months that never arise on valid dates). -/
def daysInMonth (y m : Int) : Int :=
  if m = 1 then (if isLeapYear y then 29 else 28)
  else if m = 3 ∨ m = 5 ∨ m = 8 ∨ m = 10 then 30
  else 31

/-- Validity of a civil date. -/
def JsDate.Valid (d : JsDate) : Prop :=
  0 ≤ d.month ∧ d.month < 12 ∧ 1 ≤ d.day ∧ d.day ≤ daysInMonth d.year d.month ∧
    0 ≤ d.msOfDay ∧ d.msOfDay < 86400000

instance (d : JsDate) : Decidable d.Valid := by
  unfold JsDate.Valid; exact inferInstance

/-- An integer key strictly monotone in the epoch-millisecond timestamp of a
valid date (months are padded to 32 day slots).  JS relational operators on
`Date`s compare timestamps; we model them by comparing keys, and `getTime()`
equality by key equality. -/
def JsDate.key (d : JsDate) : Int :=
  ((d.year * 12 + d.month) * 32 + d.day) * 86400000 + d.msOfDay

/-- Days since 1970-01-01 of a civil date (Gregorian; standard era-based
computation, used only for the day of week). -/
def JsDate.epochDays (d : JsDate) : Int :=
  let m1 : Int := d.month + 1
  let y : Int := d.year - (if m1 ≤ 2 then 1 else 0)
  let era : Int := y.fdiv 400
  let yoe : Int := y - era * 400
  let doy : Int := (153 * (m1 + (if 2 < m1 then -3 else 9)) + 2).ediv 5 + d.day - 1
  let doe : Int := yoe * 365 + yoe.ediv 4 - yoe.ediv 100 + doy
  era * 146097 + doe - 719468

/-- JS `getDay()`: day of week, 0 = Sunday. -/
def JsDate.getDay (d : JsDate) : Int := (d.epochDays + 4).emod 7

/-- The `YYYY-MM-DD` part of `toISOString()`, as a civil triple (the month
stays 0-based; the rendering to a string is injective for the dates used). -/
def JsDate.iso (d : JsDate) : Int × Int × Int := (d.year, d.month, d.day)

/-- `startOfDay` (leaveAccrualService.js:26-31): clone with
`setHours(0, 0, 0, 0)`.  Callers only apply it to actual `Date`s, so the
non-`Date` branch returning `null` never fires. -/
def startOfDay (date : JsDate) : JsDate :=
  { date with msOfDay := 0 }

/-- `cursor.setDate(cursor.getDate() + 1)` on a valid date: the next calendar
day, keeping the time of day. -/
def JsDate.nextDay (d : JsDate) : JsDate :=
  if d.day < daysInMonth d.year d.month then { d with day := d.day + 1 }
  else if d.month < 11 then { d with month := d.month + 1, day := 1 }
  else { d with year := d.year + 1, month := 0, day := 1 }

/-- `getMonthStart` (leaveAccrualService.js:41-43):
`new Date(getFullYear(), getMonth(), 1)`. -/
def getMonthStart (date : JsDate) : JsDate :=
  ⟨date.year, date.month, 1, 0⟩

/-- `getMonthEnd` (leaveAccrualService.js:45-47):
`new Date(getFullYear(), getMonth() + 1, 0, 23, 59, 59, 999)` — day 0 of the
next month, i.e. the last day of this month at 23:59:59.999. -/
def getMonthEnd (date : JsDate) : JsDate :=
  ⟨date.year, date.month, daysInMonth date.year date.month, 86399999⟩

/-- `getNextMonth` (leaveAccrualService.js:49-51):
`new Date(getFullYear(), getMonth() + 1, 1)` (JS normalizes month overflow
into the year by floor division). -/
def getNextMonth (date : JsDate) : JsDate :=
  ⟨date.year + (date.month + 1).ediv 12, (date.month + 1).emod 12, 1, 0⟩

/-! ## Data model -/

/-- A per-type leave balance entry:
`{balance, yearlyAllocation, monthlyAccrual, accrued, taken}`. -/
structure BalanceEntry where
  balance : JsNum
  yearlyAllocation : JsNum
  monthlyAccrual : JsNum
  accrued : JsNum
  taken : JsNum
  deriving DecidableEq, Repr

/-- The `leaveBalances` record: three per-type entries plus cycle metadata
(`null` metadata is `none`). -/
structure LeaveBalances where
  annual : BalanceEntry
  casual : BalanceEntry
  medical : BalanceEntry
  cycleStart : Option JsDate
  cycleEnd : Option JsDate
  lastAccrualRun : Option JsDate
  deriving DecidableEq, Repr

/-- A raw employee date field, before parsing.  `absent` is a nullish field
(missing, `undefined` or `null`) — the only case the `??` operator skips;
`invalid` is a present, non-nullish value from which `normalizeNullableDate`
produces no date (a falsy value such as the empty string, or an unparseable
one); `valid d` is a present value parsing to the date `d`. -/
inductive RawDate where
  | absent
  | invalid
  | valid (d : JsDate)
  deriving DecidableEq, Repr

/-- JS `a ?? b` on raw field values: `b` only when `a` is nullish. -/
def rawOr (a b : RawDate) : RawDate :=
  match a with
  | RawDate.absent => b
  | RawDate.invalid => RawDate.invalid
  | RawDate.valid d => RawDate.valid d

/-- `normalizeNullableDate` (leaveAccrualService.js:20-24): `null` for a
falsy or unparseable value, the parsed date otherwise. -/
def normalizeNullableDate : RawDate → Option JsDate
  | RawDate.absent => none
  | RawDate.invalid => none
  | RawDate.valid d => some d

/-- An employee record, restricted to the fields the service reads.  Date
fields are raw values (see `RawDate`). -/
structure Employee where
  id : Int
  internshipStartDate : RawDate := RawDate.absent
  fullTimeStartDate : RawDate := RawDate.absent
  startDate : RawDate := RawDate.absent
  start_date : RawDate := RawDate.absent
  endDate : RawDate := RawDate.absent
  fullTimeEndDate : RawDate := RawDate.absent
  leaveBalances : Option LeaveBalances := none
  deriving DecidableEq, Repr

/-- A leave application.  `fromDate`/`toDate` model the JS `from`/`to` fields
(renamed because `from` is a Lean keyword); `none` = unparseable date. -/
structure LeaveApplication where
  employeeId : Int
  type : String
  fromDate : Option JsDate
  toDate : Option JsDate
  status : String
  halfDay : Bool := false
  deriving DecidableEq, Repr

/-- A cycle range `{start, end}` (`stop` models the JS field `end`, a Lean
keyword). -/
structure CycleRange where
  start : JsDate
  stop : JsDate
  deriving DecidableEq, Repr

/-- A holiday calendar entry, already reduced to the ISO day it denotes
(string entries and `{date}` objects both carry one; falsy or malformed
entries are `none`). -/
abbrev HolidayEntry := Option (Int × Int × Int)

/-- The per-type running totals object `{annual: 0, casual: 0, medical: 0}`. -/
structure LeaveTotals where
  annual : JsNum
  casual : JsNum
  medical : JsNum
  deriving DecidableEq, Repr

/-- `totals[type]` for a supported type string (unsupported keys read as an
absent property; they are only ever read under a supported-type guard). -/
def LeaveTotals.get (t : LeaveTotals) (type : String) : JsNum :=
  if type = "annual" then t.annual
  else if type = "casual" then t.casual
  else if type = "medical" then t.medical
  else 0

/-- `totals[type] = v` for a supported type string. -/
def LeaveTotals.set (t : LeaveTotals) (type : String) (v : JsNum) : LeaveTotals :=
  if type = "annual" then { t with annual := v }
  else if type = "casual" then { t with casual := v }
  else if type = "medical" then { t with medical := v }
  else t

/-- Result of `calculateAccruedLeaveForEmployee`. -/
structure AccruedLeave where
  annual : JsNum
  casual : JsNum
  medical : JsNum
  monthsAccrued : List JsDate
  deriving DecidableEq, Repr

/-- `options` argument of `buildEmployeeLeaveState`. -/
structure BuildOptions where
  asOfDate : Option JsDate := none
  cycleRange : Option CycleRange := none
  holidays : Option (List HolidayEntry) := none
  deriving Repr

/-- Result of `buildEmployeeLeaveState`. -/
structure LeaveState where
  balances : LeaveBalances
  accrued : AccruedLeave
  taken : LeaveTotals
  cycleRange : CycleRange
  deriving DecidableEq, Repr

/-- The lowdb database contents (after the array normalization at
leaveAccrualService.js:299-302). -/
structure Db where
  employees : List Employee
  applications : List LeaveApplication
  holidays : List HolidayEntry
  deriving Repr

/-- Result of `recalculateLeaveBalancesForCycle`. -/
structure RecalcResult where
  processed : Nat
  updated : Nat
  cycleStart : JsDate
  cycleEnd : JsDate
  asOf : JsDate
  deriving DecidableEq, Repr

/-- ASCII lowercasing of a character, as JS `toLowerCase` acts on the ASCII
status strings used here. -/
def lowerChar (c : Char) : Char :=
  if 65 ≤ c.toNat ∧ c.toNat ≤ 90 then Char.ofNat (c.toNat + 32) else c

/-- `String(x).toLowerCase()` for the ASCII status strings used here. -/
def strToLower (s : String) : String := ⟨s.data.map lowerChar⟩

/-! ## The leave accrual service (src/services/leaveAccrualService.js) -/

/-- `SUPPORTED_LEAVE_TYPES` (line 3). -/
def SUPPORTED_LEAVE_TYPES : List String := ["annual", "casual", "medical"]

/-- The `annual` entry of `DEFAULT_LEAVE_BALANCES` (line 6):
`{balance: 0, yearlyAllocation: 10, monthlyAccrual: 10 / 12, accrued: 0, taken: 0}`. -/
def defaultAnnualEntry : BalanceEntry :=
  ⟨0, 10, jsDiv 10 12, 0, 0⟩

/-- The `casual` entry of `DEFAULT_LEAVE_BALANCES` (line 7). -/
def defaultCasualEntry : BalanceEntry :=
  ⟨0, 5, jsDiv 5 12, 0, 0⟩

/-- The `medical` entry of `DEFAULT_LEAVE_BALANCES` (line 8). -/
def defaultMedicalEntry : BalanceEntry :=
  ⟨0, 14, jsDiv 14 12, 0, 0⟩

/-- `roundToOneDecimal` (lines 14-18): `Math.round(value * 10) / 10`.  The
`Number(value)` coercion is the identity on numbers and the `isFinite` guard
never fails on the finite values modelled here. -/
def roundToOneDecimal (value : JsNum) : JsNum :=
  jsDiv (mathRound (jsMul value 10)) 10

/-- JS `a || b` (also `a ?? b`) on nullable dates: the left value unless it is
absent. -/
def orDate (a b : Option JsDate) : Option JsDate :=
  match a with
  | some d => some d
  | none => b

/-- `getCurrentCycleRange` (lines 33-39). -/
def getCurrentCycleRange (now : JsDate) : CycleRange :=
  let year : Int := if 6 ≤ now.month then now.year else now.year - 1
  { start := ⟨year, 6, 1, 0⟩, stop := ⟨year + 1, 5, 30, 86399999⟩ }

/-- `normalizeLeaveBalanceEntry` (lines 53-97), restricted to entries that are
either absent or whole previously-computed entry objects (the only shapes the
batch runner ever stores).  An absent entry reads every field from the
defaults (`Number(undefined)` is `NaN`, which fails the `isFinite` check). -/
def normalizeLeaveBalanceEntry (entry : Option BalanceEntry) (defaults : BalanceEntry) :
    BalanceEntry :=
  match entry with
  | some e =>
      { balance := roundToOneDecimal e.balance
        yearlyAllocation := e.yearlyAllocation
        monthlyAccrual := e.monthlyAccrual
        accrued := roundToOneDecimal e.accrued
        taken := roundToOneDecimal e.taken }
  | none =>
      { balance := roundToOneDecimal defaults.balance
        yearlyAllocation := defaults.yearlyAllocation
        monthlyAccrual := defaults.monthlyAccrual
        accrued := roundToOneDecimal defaults.accrued
        taken := roundToOneDecimal defaults.taken }

/-- `cloneDefaultLeaveBalances` (lines 99-108). -/
def cloneDefaultLeaveBalances : LeaveBalances :=
  { annual := defaultAnnualEntry
    casual := defaultCasualEntry
    medical := defaultMedicalEntry
    cycleStart := none
    cycleEnd := none
    lastAccrualRun := none }

/-- `resolveEmploymentStart` (lines 110-116): the `??` chain runs on the raw
`fullTimeStartDate ?? startDate ?? start_date` values and only its result is
parsed, then `startOfDay(primary || secondary || cycleStart)`. -/
def resolveEmploymentStart (employee : Employee) (cycleStart : JsDate) : JsDate :=
  let primary := normalizeNullableDate employee.internshipStartDate
  let secondary := normalizeNullableDate
    (rawOr employee.fullTimeStartDate (rawOr employee.startDate employee.start_date))
  startOfDay ((orDate primary secondary).getD cycleStart)

/-- `resolveEmploymentEnd` (lines 118-121): the raw `endDate ?? fullTimeEndDate`
value is parsed; `startOfDay` of it when that yields a date, else
`startOfDay(cycleEnd)`. -/
def resolveEmploymentEnd (employee : Employee) (cycleEnd : JsDate) : JsDate :=
  match normalizeNullableDate (rawOr employee.endDate employee.fullTimeEndDate) with
  | some explicit => startOfDay explicit
  | none => startOfDay cycleEnd

/-- The effective employment window (the non-`null` result shape of
`getEffectiveEmploymentWindow`). -/
structure EmploymentWindow where
  effectiveStart : JsDate
  effectiveEnd : JsDate
  deriving DecidableEq, Repr

/-- `getEffectiveEmploymentWindow` (lines 123-137). -/
def getEffectiveEmploymentWindow (employee : Employee) (cycleRange : CycleRange) :
    Option EmploymentWindow :=
  let cycleStart := startOfDay cycleRange.start
  let cycleEnd := startOfDay cycleRange.stop
  let employmentStart := resolveEmploymentStart employee cycleStart
  let employmentEnd := resolveEmploymentEnd employee cycleEnd
  let effectiveStart := if cycleStart.key < employmentStart.key then employmentStart else cycleStart
  let effectiveEnd := if employmentEnd.key < cycleEnd.key then employmentEnd else cycleEnd
  if effectiveEnd.key < effectiveStart.key then none
  else some ⟨effectiveStart, effectiveEnd⟩

/-- The `while (cursor <= accrualEnd)` loop of `listAccrualMonths`
(lines 145-157), driven by fuel.  The cursor advances by `getNextMonth`, which
adds exactly `32 * 86400000` to the key of a month start, so the fuel chosen
in `listAccrualMonths` makes this agree with the unbounded loop.  The source
also computes an `activeEnd` value that it never reads; it is omitted. -/
def accrualMonthsLoop (window : EmploymentWindow) (accrualEnd : JsDate) :
    Nat → JsDate → List JsDate
  | 0, _ => []
  | fuel + 1, cursor =>
    if cursor.key ≤ accrualEnd.key then
      let monthEnd := getMonthEnd cursor
      let activeStart :=
        if cursor.key < window.effectiveStart.key then window.effectiveStart else cursor
      let accrualBoundary := if accrualEnd.key < monthEnd.key then accrualEnd else monthEnd
      let rest := accrualMonthsLoop window accrualEnd fuel (getNextMonth cursor)
      if activeStart.key ≤ accrualBoundary.key then cursor :: rest else rest
    else []

/-- `listAccrualMonths` (lines 139-160).  The `asOfDate` argument is always an
actual `Date` at every call site, so the `new Date()` fallback is dropped. -/
def listAccrualMonths (window : Option EmploymentWindow) (asOfDate : JsDate) : List JsDate :=
  match window with
  | none => []
  | some w =>
    let cutoffDate := startOfDay asOfDate
    let accrualEnd := if w.effectiveEnd.key < cutoffDate.key then w.effectiveEnd else cutoffDate
    let first := getMonthStart w.effectiveStart
    let fuel : Nat := ((accrualEnd.key - first.key).toNat / (32 * 86400000)) + 1
    accrualMonthsLoop w accrualEnd fuel first

/-- `calculateAccruedLeaveForEmployee` (lines 162-187). -/
def calculateAccruedLeaveForEmployee (employee : Employee) (cycleRange : CycleRange)
    (asOfDate : JsDate) : AccruedLeave :=
  match getEffectiveEmploymentWindow employee cycleRange with
  | none => { annual := 0, casual := 0, medical := 0, monthsAccrued := [] }
  | some window =>
    let accrualMonths := listAccrualMonths (some window) asOfDate
    let monthlyAnnual := defaultAnnualEntry.monthlyAccrual
    let monthlyCasual := defaultCasualEntry.monthlyAccrual
    let monthlyMedical := defaultMedicalEntry.monthlyAccrual
    let totals : LeaveTotals :=
      accrualMonths.foldl
        (fun t _ =>
          { annual := jsAdd t.annual (jsOr monthlyAnnual defaultAnnualEntry.monthlyAccrual)
            casual := jsAdd t.casual (jsOr monthlyCasual defaultCasualEntry.monthlyAccrual)
            medical := jsAdd t.medical (jsOr monthlyMedical defaultMedicalEntry.monthlyAccrual) })
        ⟨0, 0, 0⟩
    { annual := roundToOneDecimal totals.annual
      casual := roundToOneDecimal totals.casual
      medical := roundToOneDecimal totals.medical
      monthsAccrued := accrualMonths }

/-- `buildHolidaySet` (lines 189-195): keep the ISO day of each entry that
carries one (truthy string or `{date}` object). -/
def buildHolidaySet (holidays : List HolidayEntry) : List (Int × Int × Int) :=
  holidays.filterMap id

/-- The `while (cursor <= cappedEnd)` day-counting loop of
`getLeaveDaysWithin` (lines 214-223), driven by fuel.  On valid dates
`nextDay` advances the key by at least `86400000`, so the fuel chosen by the
caller makes this agree with the unbounded loop. -/
def countWorkingDays (holidaySet : List (Int × Int × Int)) (cappedEnd : JsDate) :
    Nat → JsDate → JsNum → JsNum
  | 0, _, days => days
  | fuel + 1, cursor, days =>
    if cursor.key ≤ cappedEnd.key then
      let day := cursor.getDay
      let days :=
        if ¬day = 0 ∧ ¬day = 6 ∧ cursor.iso ∉ holidaySet then jsAdd days 1 else days
      countWorkingDays holidaySet cappedEnd fuel cursor.nextDay days
    else days

/-- `getLeaveDaysWithin` (lines 197-226). -/
def getLeaveDaysWithin (app : LeaveApplication) (startDate endDate : JsDate)
    (holidaySet : List (Int × Int × Int)) : JsNum :=
  match app.fromDate, app.toDate with
  | some fromD, some toD =>
    let cappedStart := if fromD.key < startDate.key then startDate else fromD
    let cappedEnd := if endDate.key < toD.key then endDate else toD
    if cappedEnd.key < cappedStart.key then 0
    else if app.halfDay then
      if cappedStart.key = fromD.key then
        if fromD.getDay = 0 ∨ fromD.getDay = 6 ∨ fromD.iso ∈ holidaySet then 0
        else ⟨1, -1⟩
      else 0
    else
      let fuel : Nat := ((cappedEnd.key - cappedStart.key).toNat / 86400000) + 1
      countWorkingDays holidaySet cappedEnd fuel cappedStart 0
  | _, _ => 0

/-- `calculateLeaveTakenForEmployee` (lines 228-257). -/
def calculateLeaveTakenForEmployee (employeeId : Int) (applications : List LeaveApplication)
    (cycleRange : CycleRange) (asOfDate : JsDate) (holidays : List HolidayEntry) : LeaveTotals :=
  let startBoundary := startOfDay cycleRange.start
  let endBoundary :=
    let endCap := startOfDay asOfDate
    startOfDay (if cycleRange.stop.key < endCap.key then cycleRange.stop else endCap)
  let holidaySet := buildHolidaySet holidays
  applications.foldl
    (fun totals app =>
      if ¬app.employeeId = employeeId then totals
      else if ¬strToLower app.status = "approved" then totals
      else if app.type ∉ SUPPORTED_LEAVE_TYPES then totals
      else
        match app.fromDate, app.toDate with
        | some fromD, some toD =>
          if toD.key < startBoundary.key ∨ endBoundary.key < fromD.key then totals
          else
            let days := getLeaveDaysWithin app startBoundary endBoundary holidaySet
            totals.set app.type (roundToOneDecimal (jsAdd (jsOr (totals.get app.type) 0) days))
        | _, _ => totals)
    ⟨0, 0, 0⟩

/-- `buildEmployeeLeaveState` (lines 259-294).  The extra `now` argument
models the impure `new Date()` defaults; every call in the claims provides
`asOfDate`, making `now` irrelevant there. -/
def buildEmployeeLeaveState (now : JsDate) (employee : Employee)
    (applications : List LeaveApplication) (options : BuildOptions) : LeaveState :=
  let asOfDate := options.asOfDate.getD now
  let cycleRange := options.cycleRange.getD (getCurrentCycleRange asOfDate)
  let holidays := options.holidays.getD []
  let accrued := calculateAccruedLeaveForEmployee employee cycleRange asOfDate
  let taken := calculateLeaveTakenForEmployee employee.id applications cycleRange asOfDate holidays
  let mkEntry := fun (stored : Option BalanceEntry) (defaults : BalanceEntry)
      (accruedRaw takenRaw : JsNum) =>
    let accruedValue := jsOr accruedRaw 0
    let takenValue := jsOr takenRaw 0
    let balance := roundToOneDecimal (jsSub accruedValue takenValue)
    { normalizeLeaveBalanceEntry stored defaults with
        monthlyAccrual := defaults.monthlyAccrual
        yearlyAllocation := defaults.yearlyAllocation
        accrued := roundToOneDecimal accruedValue
        taken := roundToOneDecimal takenValue
        balance := balance }
  let balances : LeaveBalances :=
    { cloneDefaultLeaveBalances with
        annual := mkEntry (employee.leaveBalances.map (·.annual)) defaultAnnualEntry
          accrued.annual taken.annual
        casual := mkEntry (employee.leaveBalances.map (·.casual)) defaultCasualEntry
          accrued.casual taken.casual
        medical := mkEntry (employee.leaveBalances.map (·.medical)) defaultMedicalEntry
          accrued.medical taken.medical
        cycleStart := some cycleRange.start
        cycleEnd := some cycleRange.stop
        lastAccrualRun := some asOfDate }
  { balances := balances, accrued := accrued, taken := taken, cycleRange := cycleRange }

/-- `recalculateLeaveBalancesForCycle` (lines 296-336), as a pure state
transformer on the database (`db.read`/`db.write` become state passing; the
conditional `db.write` does not change the resulting state). -/
def recalculateLeaveBalancesForCycle (asOfDate : JsDate) (db : Db) : Db × RecalcResult :=
  let cycleRange := getCurrentCycleRange asOfDate
  let results := db.employees.map fun emp =>
    let balances := (buildEmployeeLeaveState asOfDate emp db.applications
      { asOfDate := some asOfDate, cycleRange := some cycleRange,
        holidays := some db.holidays }).balances
    let hasChanged : Bool := ¬emp.leaveBalances = some balances
    ({ emp with leaveBalances := some balances }, hasChanged)
  ({ db with employees := results.map Prod.fst },
   { processed := db.employees.length
     updated := (results.filter Prod.snd).length
     cycleStart := cycleRange.start
     cycleEnd := cycleRange.stop
     asOf := asOfDate })

/-- `accrueMonthlyLeave` (lines 338-340). -/
def accrueMonthlyLeave (now : JsDate) (db : Db) : Db × RecalcResult :=
  recalculateLeaveBalancesForCycle now db

/-! ## Concrete scenarios (mirroring src/services/leaveAccrualService.test.js) -/

/-- `new Date("2025-06-30")`: the as-of date of the full-cycle tests. -/
def asOf20250630 : JsDate := ⟨2025, 5, 30, 0⟩

/-- The options object the tests pass: explicit as-of date, the current cycle
of that date, and no holidays. -/
def testOptions (asOf : JsDate) : BuildOptions :=
  { asOfDate := some asOf, cycleRange := some (getCurrentCycleRange asOf),
    holidays := some [] }

/-- `createEmployee(new Date("2020-01-01"))`. -/
def employee2020 : Employee :=
  { id := 1, internshipStartDate := RawDate.valid ⟨2020, 0, 1, 0⟩ }

/-- `leaveApplication(1, "annual", "2024-10-07", "2024-10-08")`. -/
def annualOctoberApp : LeaveApplication :=
  { employeeId := 1, type := "annual", fromDate := some ⟨2024, 9, 7, 0⟩,
    toDate := some ⟨2024, 9, 8, 0⟩, status := "approved" }

/-- `leaveApplication(1, "casual", "2025-03-10", "2025-03-10")`. -/
def casualMarchApp : LeaveApplication :=
  { employeeId := 1, type := "casual", fromDate := some ⟨2025, 2, 10, 0⟩,
    toDate := some ⟨2025, 2, 10, 0⟩, status := "approved" }

/-- `createEmployee(new Date("2024-07-01"), new Date("2025-01-10"))`: the
mid-cycle-departure employee. -/
def exitEmployee : Employee :=
  { id := 1, internshipStartDate := RawDate.valid ⟨2024, 6, 1, 0⟩,
    endDate := RawDate.valid ⟨2025, 0, 10, 0⟩ }

/-- `new Date("2025-03-01")`: as-of date of the mid-cycle-departure test. -/
def asOf20250301 : JsDate := ⟨2025, 2, 1, 0⟩

/-- `createEmployee(new Date("2024-07-01"))`: the over-drawn-leave employee. -/
def julyJoinEmployee : Employee :=
  { id := 1, internshipStartDate := RawDate.valid ⟨2024, 6, 1, 0⟩ }

/-- `new Date("2024-12-31")`: as-of date of the over-drawn-leave test. -/
def asOf20241231 : JsDate := ⟨2024, 11, 31, 0⟩

/-- `leaveApplication(1, "annual", "2024-09-02", "2024-09-09")`: six working
days, before six working days of entitlement have accrued. -/
def overdrawnApp : LeaveApplication :=
  { employeeId := 1, type := "annual", fromDate := some ⟨2024, 8, 2, 0⟩,
    toDate := some ⟨2024, 8, 9, 0⟩, status := "approved" }

/-- An employee record carrying no employment-date fields at all. -/
def noDatesEmployee : Employee := { id := 7 }

/-- An approved half-day application on Monday 2025-03-10. -/
def halfDayMondayApp : LeaveApplication :=
  { employeeId := 1, type := "annual", fromDate := some ⟨2025, 2, 10, 0⟩,
    toDate := some ⟨2025, 2, 10, 0⟩, status := "approved", halfDay := true }

/-- An application whose status is the string "Approved" (not lower-case). -/
def upperCaseStatusApp : LeaveApplication :=
  { employeeId := 1, type := "annual", fromDate := some ⟨2025, 2, 10, 0⟩,
    toDate := some ⟨2025, 2, 10, 0⟩, status := "Approved" }

/-- An application whose status is "rejected". -/
def rejectedApp : LeaveApplication :=
  { employeeId := 1, type := "annual", fromDate := some ⟨2025, 2, 10, 0⟩,
    toDate := some ⟨2025, 2, 10, 0⟩, status := "rejected" }

/-! ## Claims -/

/-- Claim C2: for an employee whose employment start is 2020-01-01, with no
holidays and as-of date 2025-06-30, `buildEmployeeLeaveState` yields balances
annual = 10, casual = 5, medical = 14 with no applications; and with the two
approved applications (annual 2024-10-07..2024-10-08, casual
2025-03-10..2025-03-10) it yields annual = 8, casual = 4, medical = 14. -/
theorem claim_C2_concrete_scenarios :
    ((buildEmployeeLeaveState asOf20250630 employee2020 []
        (testOptions asOf20250630)).balances.annual.balance = 10 ∧
      (buildEmployeeLeaveState asOf20250630 employee2020 []
        (testOptions asOf20250630)).balances.casual.balance = 5 ∧
      (buildEmployeeLeaveState asOf20250630 employee2020 []
        (testOptions asOf20250630)).balances.medical.balance = 14) ∧
    ((buildEmployeeLeaveState asOf20250630 employee2020 [annualOctoberApp, casualMarchApp]
        (testOptions asOf20250630)).balances.annual.balance = 8 ∧
      (buildEmployeeLeaveState asOf20250630 employee2020 [annualOctoberApp, casualMarchApp]
        (testOptions asOf20250630)).balances.casual.balance = 4 ∧
      (buildEmployeeLeaveState asOf20250630 employee2020 [annualOctoberApp, casualMarchApp]
        (testOptions asOf20250630)).balances.medical.balance = 14) := by
  decide

/-- Claim C9: for every date `now`, `getCurrentCycleRange now` is the range
from local July 1 of the fiscal year `Y` to June 30 23:59:59.999 of year
`Y + 1`, where `Y` is the year of `now` when the 0-based month of `now` is at
least 6 and the preceding year otherwise; the function is total (pure, no
failure modes). -/
theorem claim_C9_cycle_range (now : JsDate) :
    getCurrentCycleRange now =
      { start :=
          { year := if 6 ≤ now.month then now.year else now.year - 1,
            month := 6, day := 1, msOfDay := 0 },
        stop :=
          { year := (if 6 ≤ now.month then now.year else now.year - 1) + 1,
            month := 5, day := 30,
            msOfDay := 23 * 3600000 + 59 * 60000 + 59 * 1000 + 999 } } := rfl

/-- Claim C10: for every employee record — whatever `monthlyAccrual` or
`yearlyAllocation` values its stored `leaveBalances` may carry — the balances
returned by `buildEmployeeLeaveState` have `monthlyAccrual` and
`yearlyAllocation` forced to the process-wide defaults per type (annual 10
and 10/12, casual 5 and 5/12, medical 14 and 14/12). -/
theorem claim_C10_defaults_forced (now : JsDate) (employee : Employee)
    (applications : List LeaveApplication) (options : BuildOptions) :
    (buildEmployeeLeaveState now employee applications options).balances.annual.monthlyAccrual
        = jsDiv 10 12 ∧
    (buildEmployeeLeaveState now employee applications options).balances.annual.yearlyAllocation
        = 10 ∧
    (buildEmployeeLeaveState now employee applications options).balances.casual.monthlyAccrual
        = jsDiv 5 12 ∧
    (buildEmployeeLeaveState now employee applications options).balances.casual.yearlyAllocation
        = 5 ∧
    (buildEmployeeLeaveState now employee applications options).balances.medical.monthlyAccrual
        = jsDiv 14 12 ∧
    (buildEmployeeLeaveState now employee applications options).balances.medical.yearlyAllocation
        = 14 :=
  ⟨rfl, rfl, rfl, rfl, rfl, rfl⟩

/-- Claim C6: the composed balance per type is the round-to-one-decimal of
accrued minus taken with no lower bound applied, and on the over-drawn
scenario (employment start 2024-07-01, as-of 2024-12-31, approved annual
leave 2024-09-02..2024-09-09) the resulting annual balance is strictly
negative — not clamped to zero. -/
theorem claim_C6_negative_balance :
    (∀ (now : JsDate) (employee : Employee) (applications : List LeaveApplication)
        (options : BuildOptions),
      (buildEmployeeLeaveState now employee applications options).balances.annual.balance =
        roundToOneDecimal (jsSub
          (jsOr (buildEmployeeLeaveState now employee applications options).accrued.annual 0)
          (jsOr (buildEmployeeLeaveState now employee applications options).taken.annual 0)) ∧
      (buildEmployeeLeaveState now employee applications options).balances.casual.balance =
        roundToOneDecimal (jsSub
          (jsOr (buildEmployeeLeaveState now employee applications options).accrued.casual 0)
          (jsOr (buildEmployeeLeaveState now employee applications options).taken.casual 0)) ∧
      (buildEmployeeLeaveState now employee applications options).balances.medical.balance =
        roundToOneDecimal (jsSub
          (jsOr (buildEmployeeLeaveState now employee applications options).accrued.medical 0)
          (jsOr (buildEmployeeLeaveState now employee applications options).taken.medical 0))) ∧
    JsNum.lt
      (buildEmployeeLeaveState asOf20241231 julyJoinEmployee [overdrawnApp]
        (testOptions asOf20241231)).balances.annual.balance 0 := by
  refine ⟨fun now employee applications options => ⟨rfl, rfl, rfl⟩, ?_⟩
  decide

/-- Claim C8: employment start resolves to `internshipStartDate` when it
yields a date, else to `fullTimeStartDate`, else to `startDate` (the `??`
fallback steps only over nullish fields, so it applies when the earlier field
is absent); with no employment-start date at all it defaults to the cycle
start, so such an employee evaluated at the cycle end accrues the full cycle
entitlement (annual 10, casual 5, medical 14) instead of raising an error. -/
theorem claim_C8_start_resolution :
    (∀ (employee : Employee) (cycleStart : JsDate) (d : JsDate),
        employee.internshipStartDate = RawDate.valid d →
        resolveEmploymentStart employee cycleStart = startOfDay d) ∧
    (∀ (employee : Employee) (cycleStart : JsDate) (d : JsDate),
        normalizeNullableDate employee.internshipStartDate = none →
        employee.fullTimeStartDate = RawDate.valid d →
        resolveEmploymentStart employee cycleStart = startOfDay d) ∧
    (∀ (employee : Employee) (cycleStart : JsDate) (d : JsDate),
        normalizeNullableDate employee.internshipStartDate = none →
        employee.fullTimeStartDate = RawDate.absent →
        employee.startDate = RawDate.valid d →
        resolveEmploymentStart employee cycleStart = startOfDay d) ∧
    (∀ (employee : Employee) (cycleStart : JsDate),
        employee.internshipStartDate = RawDate.absent →
        employee.fullTimeStartDate = RawDate.absent →
        employee.startDate = RawDate.absent → employee.start_date = RawDate.absent →
        resolveEmploymentStart employee cycleStart = startOfDay cycleStart) ∧
    ((calculateAccruedLeaveForEmployee noDatesEmployee (getCurrentCycleRange asOf20250630)
        asOf20250630).annual = 10 ∧
      (calculateAccruedLeaveForEmployee noDatesEmployee (getCurrentCycleRange asOf20250630)
        asOf20250630).casual = 5 ∧
      (calculateAccruedLeaveForEmployee noDatesEmployee (getCurrentCycleRange asOf20250630)
        asOf20250630).medical = 14) := by
  refine ⟨?_, ?_, ?_, ?_, ?_⟩
  · intro employee cycleStart d h
    simp [resolveEmploymentStart, normalizeNullableDate, orDate, h]
  · intro employee cycleStart d h1 h2
    cases hI : employee.internshipStartDate with
    | absent => simp [resolveEmploymentStart, hI, h2, rawOr, normalizeNullableDate, orDate]
    | invalid => simp [resolveEmploymentStart, hI, h2, rawOr, normalizeNullableDate, orDate]
    | valid x => rw [hI] at h1; simp [normalizeNullableDate] at h1
  · intro employee cycleStart d h1 h2 h3
    cases hI : employee.internshipStartDate with
    | absent =>
      simp [resolveEmploymentStart, hI, h2, h3, rawOr, normalizeNullableDate, orDate]
    | invalid =>
      simp [resolveEmploymentStart, hI, h2, h3, rawOr, normalizeNullableDate, orDate]
    | valid x => rw [hI] at h1; simp [normalizeNullableDate] at h1
  · intro employee cycleStart h1 h2 h3 h4
    simp [resolveEmploymentStart, rawOr, normalizeNullableDate, orDate, h1, h2, h3, h4]
  · decide

/-- Claim C8 witness: the resolution cases applied at concrete employees. -/
theorem claim_C8_start_resolution_witness :
    resolveEmploymentStart employee2020 ⟨2024, 6, 1, 0⟩ = startOfDay ⟨2020, 0, 1, 0⟩ ∧
    resolveEmploymentStart noDatesEmployee ⟨2024, 6, 1, 0⟩ = startOfDay ⟨2024, 6, 1, 0⟩ :=
  ⟨claim_C8_start_resolution.1 employee2020 ⟨2024, 6, 1, 0⟩ ⟨2020, 0, 1, 0⟩ rfl,
   claim_C8_start_resolution.2.2.2.1 noDatesEmployee ⟨2024, 6, 1, 0⟩ rfl rfl rfl rfl⟩

/-- A left fold whose step ignores the list elements only depends on the
length of the list. -/
theorem foldl_const_eq_iterate {α β : Type} (f : β → β) (init : β) (l : List α) :
    l.foldl (fun b _ => f b) init = f^[l.length] init := by
  induction l generalizing init with
  | nil => rfl
  | cons x t ih =>
    simp only [List.foldl_cons, List.length_cons, ih, Function.iterate_succ_apply]

set_option maxHeartbeats 2000000 in
/-- Claim C3: whenever the accrual walk of `calculateAccruedLeaveForEmployee`
qualifies exactly 12 months, the rounded accrued totals are exactly the
yearly allocations — annual 10, casual 5, medical 14 — with no overshoot or
undershoot from the binary64 summation of the monthly rates or from the
rounding to one decimal. -/
theorem claim_C3_full_year_exact (employee : Employee) (cycleRange : CycleRange)
    (asOfDate : JsDate)
    (h : (calculateAccruedLeaveForEmployee employee cycleRange asOfDate).monthsAccrued.length
      = 12) :
    (calculateAccruedLeaveForEmployee employee cycleRange asOfDate).annual = 10 ∧
    (calculateAccruedLeaveForEmployee employee cycleRange asOfDate).casual = 5 ∧
    (calculateAccruedLeaveForEmployee employee cycleRange asOfDate).medical = 14 := by
  rcases hw : getEffectiveEmploymentWindow employee cycleRange with _ | w
  · unfold calculateAccruedLeaveForEmployee at h
    rw [hw] at h
    simp at h
  · unfold calculateAccruedLeaveForEmployee at h ⊢
    rw [hw] at h ⊢
    dsimp only at h ⊢
    rw [foldl_const_eq_iterate
      (fun t : LeaveTotals =>
        { annual := jsAdd t.annual (jsOr defaultAnnualEntry.monthlyAccrual
            defaultAnnualEntry.monthlyAccrual)
          casual := jsAdd t.casual (jsOr defaultCasualEntry.monthlyAccrual
            defaultCasualEntry.monthlyAccrual)
          medical := jsAdd t.medical (jsOr defaultMedicalEntry.monthlyAccrual
            defaultMedicalEntry.monthlyAccrual) })]
    rw [h]
    exact ⟨by decide, by decide, by decide⟩

/-- Claim C3 witness: the full-cycle employee qualifies exactly 12 months and
receives exactly the yearly allocations. -/
theorem claim_C3_full_year_exact_witness :
    (calculateAccruedLeaveForEmployee employee2020 (getCurrentCycleRange asOf20250630)
      asOf20250630).annual = 10 ∧
    (calculateAccruedLeaveForEmployee employee2020 (getCurrentCycleRange asOf20250630)
      asOf20250630).casual = 5 ∧
    (calculateAccruedLeaveForEmployee employee2020 (getCurrentCycleRange asOf20250630)
      asOf20250630).medical = 14 :=
  claim_C3_full_year_exact employee2020 (getCurrentCycleRange asOf20250630) asOf20250630
    (by decide)

/-- Claim C5 counterexample: the claim says an application contributes only
if its status satisfies `status === "approved"`, and that applications with
any other status string contribute zero.  The code lowercases the status
first (line 243), so the status string "Approved" — which is not equal to
"approved" — still contributes a full day. -/
theorem claim_C5_counterexample :
    ¬upperCaseStatusApp.status = "approved" ∧
    (calculateLeaveTakenForEmployee 1 [upperCaseStatusApp]
      (getCurrentCycleRange asOf20250630) asOf20250630 []).annual = 1 := by
  constructor
  · decide
  · decide

/-- Claim C5 (amended): an application contributes only if its status,
coerced to a string and lowercased, equals "approved"; applications whose
lowercased status differs from "approved", whose type is outside
{annual, casual, medical}, or whose from/to dates are unparseable contribute
zero (the whole totals object stays zero) and are skipped without error. -/
theorem claim_C5_skip_conditions (app : LeaveApplication) (employeeId : Int)
    (cycleRange : CycleRange) (asOfDate : JsDate) (holidays : List HolidayEntry)
    (h : ¬strToLower app.status = "approved" ∨ app.type ∉ SUPPORTED_LEAVE_TYPES ∨
      app.fromDate = none ∨ app.toDate = none) :
    calculateLeaveTakenForEmployee employeeId [app] cycleRange asOfDate holidays =
      ⟨0, 0, 0⟩ := by
  unfold calculateLeaveTakenForEmployee
  simp only [List.foldl_cons, List.foldl_nil]
  by_cases hid : app.employeeId = employeeId
  · rcases h with h | h | h | h
    · simp [h]
    · simp [h]
    · simp [h]
    · cases hfrom : app.fromDate <;> simp [hfrom, h]
  · simp [hid]

/-- Claim C5 witness: a rejected application is skipped. -/
theorem claim_C5_skip_conditions_witness :
    calculateLeaveTakenForEmployee 1 [rejectedApp] (getCurrentCycleRange asOf20250630)
      asOf20250630 [] = ⟨0, 0, 0⟩ :=
  claim_C5_skip_conditions rejectedApp 1 (getCurrentCycleRange asOf20250630) asOf20250630 []
    (Or.inl (by decide))

/-- Every month has at most 31 days. -/
theorem daysInMonth_le (y m : Int) : daysInMonth y m ≤ 31 := by
  unfold daysInMonth
  split
  · split <;> omega
  · split <;> omega

/-- Membership in a conditionally consed list. -/
theorem mem_ite_cons {α : Type} {m c0 : α} {P : Prop} [Decidable P] {l : List α}
    (hm : m ∈ (if P then c0 :: l else l)) : m = c0 ∨ m ∈ l := by
  split at hm
  · exact List.mem_cons.mp hm
  · exact Or.inr hm

/-- A conditional `Option` that turned out to be `some`. -/
theorem eq_of_ite_none_some {α : Type} {P : Prop} [Decidable P] {a w : α}
    (h : (if P then none else some a) = some w) : a = w := by
  split at h
  · exact absurd h (by simp)
  · exact Option.some_inj.mp h

/-- Every month pushed by the accrual walk starts on or before the accrual
end, and is a month start (day 1, midnight). -/
theorem accrualMonthsLoop_mem (w : EmploymentWindow) (accrualEnd : JsDate) :
    ∀ (fuel : Nat) (cursor m : JsDate), cursor.day = 1 → cursor.msOfDay = 0 →
      m ∈ accrualMonthsLoop w accrualEnd fuel cursor →
      m.key ≤ accrualEnd.key ∧ m.day = 1 ∧ m.msOfDay = 0 := by
  intro fuel
  induction fuel with
  | zero =>
    intro cursor m _ _ hm
    simp [accrualMonthsLoop] at hm
  | succ n ih =>
    intro cursor m hday hms hm
    unfold accrualMonthsLoop at hm
    by_cases hc : cursor.key ≤ accrualEnd.key
    · rw [if_pos hc] at hm
      dsimp only at hm
      rcases mem_ite_cons hm with rfl | hm2
      · exact ⟨hc, hday, hms⟩
      · exact ih (getNextMonth cursor) m rfl rfl hm2
    · rw [if_neg hc] at hm
      simp at hm

/-- Every month listed by `listAccrualMonths` starts on or before the
effective employment end. -/
theorem listAccrualMonths_mem_le (w : EmploymentWindow) (asOfDate : JsDate) (m : JsDate)
    (hm : m ∈ listAccrualMonths (some w) asOfDate) :
    m.key ≤ w.effectiveEnd.key ∧ m.day = 1 ∧ m.msOfDay = 0 := by
  unfold listAccrualMonths at hm
  dsimp only at hm
  have h := accrualMonthsLoop_mem w _ _ (getMonthStart w.effectiveStart) m rfl rfl hm
  refine ⟨?_, h.2.1, h.2.2⟩
  have h1 := h.1
  rw [apply_ite JsDate.key] at h1
  split at h1
  · exact h1
  · omega

/-- When the employee carries an explicit `endDate`, the effective window
never extends past that day. -/
theorem window_end_le_of_endDate (employee : Employee) (cycleRange : CycleRange)
    (endD : JsDate) (hEnd : employee.endDate = RawDate.valid endD) (w : EmploymentWindow)
    (hw : getEffectiveEmploymentWindow employee cycleRange = some w) :
    w.effectiveEnd.key ≤ (startOfDay endD).key := by
  simp only [getEffectiveEmploymentWindow, resolveEmploymentEnd, rawOr,
    normalizeNullableDate, hEnd] at hw
  rw [← eq_of_ite_none_some hw]
  dsimp only
  rw [apply_ite JsDate.key]
  split
  · omega
  · omega

/-- Claim C7: for an employee with an explicit end date inside the cycle, no
qualifying accrual month starts after the month containing the end date, even
when the as-of date is later; and on the concrete scenario (start 2024-07-01,
end 2025-01-10, as-of 2025-03-01) exactly the seven months July 2024 through
January 2025 accrue. -/
theorem claim_C7_exit_stops_accrual :
    (∀ (employee : Employee) (cycleRange : CycleRange) (asOfDate endD : JsDate),
        employee.endDate = RawDate.valid endD → endD.Valid →
        (startOfDay cycleRange.start).key ≤ (startOfDay endD).key →
        (startOfDay endD).key ≤ (startOfDay cycleRange.stop).key →
        ∀ m ∈ (calculateAccruedLeaveForEmployee employee cycleRange asOfDate).monthsAccrued,
          m.key ≤ (getMonthStart (startOfDay endD)).key) ∧
    (calculateAccruedLeaveForEmployee exitEmployee (getCurrentCycleRange asOf20250301)
        asOf20250301).monthsAccrued =
      [⟨2024, 6, 1, 0⟩, ⟨2024, 7, 1, 0⟩, ⟨2024, 8, 1, 0⟩, ⟨2024, 9, 1, 0⟩,
       ⟨2024, 10, 1, 0⟩, ⟨2024, 11, 1, 0⟩, ⟨2025, 0, 1, 0⟩] := by
  constructor
  · intro employee cycleRange asOfDate endD hEnd hValid hc1 hc2 m hm
    rcases hw : getEffectiveEmploymentWindow employee cycleRange with _ | w
    · unfold calculateAccruedLeaveForEmployee at hm
      rw [hw] at hm
      simp at hm
    · unfold calculateAccruedLeaveForEmployee at hm
      rw [hw] at hm
      dsimp only at hm
      obtain ⟨hk, hd1, hms⟩ := listAccrualMonths_mem_le w asOfDate m hm
      have h4 := window_end_le_of_endDate employee cycleRange endD hEnd w hw
      have hdm := daysInMonth_le endD.year endD.month
      obtain ⟨_, _, hday1, hday2, _, _⟩ := hValid
      simp only [JsDate.key, getMonthStart, startOfDay] at hk h4 ⊢
      omega
  · decide

/-- Claim C7 witness: the universal bound applied to the first accrued month
of the concrete mid-cycle-exit scenario. -/
theorem claim_C7_exit_stops_accrual_witness :
    JsDate.key ⟨2024, 6, 1, 0⟩ ≤ (getMonthStart (startOfDay ⟨2025, 0, 10, 0⟩)).key :=
  claim_C7_exit_stops_accrual.1 exitEmployee (getCurrentCycleRange asOf20250301) asOf20250301
    ⟨2025, 0, 10, 0⟩ rfl (by decide) (by decide) (by decide) ⟨2024, 6, 1, 0⟩ (by decide)


/-- The per-type entries composed by `buildEmployeeLeaveState` override every
field of the normalized stored entry, so the whole result is independent of
the stored `leaveBalances` (definitionally). -/
theorem buildEmployeeLeaveState_ignores_stored (now : JsDate) (e : Employee)
    (b : Option LeaveBalances) (apps : List LeaveApplication) (opts : BuildOptions) :
    buildEmployeeLeaveState now { e with leaveBalances := b } apps opts =
      buildEmployeeLeaveState now e apps opts := rfl

/-- Claim C1: `buildEmployeeLeaveState` is deterministic in its inputs, and
running `recalculateLeaveBalancesForCycle` a second time with the same as-of
date over the state produced by a first run reports `updated = 0` and leaves
the database — in particular every employee record and its `leaveBalances` —
unchanged. -/
theorem claim_C1_idempotent :
    (∀ (now : JsDate) (employee : Employee) (applications : List LeaveApplication)
        (options : BuildOptions),
      (buildEmployeeLeaveState now employee applications options).balances =
        (buildEmployeeLeaveState now employee applications options).balances) ∧
    (∀ (asOfDate : JsDate) (db : Db),
      (recalculateLeaveBalancesForCycle asOfDate
          (recalculateLeaveBalancesForCycle asOfDate db).1).2.updated = 0 ∧
      (recalculateLeaveBalancesForCycle asOfDate
          (recalculateLeaveBalancesForCycle asOfDate db).1).1 =
        (recalculateLeaveBalancesForCycle asOfDate db).1) := by
  refine ⟨fun _ _ _ _ => rfl, ?_⟩
  intro asOfDate db
  obtain ⟨emps, apps, hols⟩ := db
  simp only [recalculateLeaveBalancesForCycle, List.map_map]
  constructor
  · induction emps with
    | nil => rfl
    | cons e t ih =>
      simp only [List.map_cons, List.filter, Function.comp] at ih ⊢
      simp [buildEmployeeLeaveState_ignores_stored] at ih ⊢
  · induction emps with
    | nil => rfl
    | cons e t ih =>
      simp only [List.map_cons, Function.comp] at ih ⊢
      simp [buildEmployeeLeaveState_ignores_stored] at ih ⊢

/-- The half-day branch of `getLeaveDaysWithin`, characterized under the
guard conditions its caller establishes. -/
theorem getLeaveDaysWithin_halfDay (app : LeaveApplication) (startB endB : JsDate)
    (hs : List (Int × Int × Int)) (fromD toD : JsDate)
    (hHalf : app.halfDay = true) (hFrom : app.fromDate = some fromD)
    (hTo : app.toDate = some toD) (hOrder : fromD.key ≤ toD.key)
    (hwse : startB.key ≤ endB.key) (hf : fromD.key ≤ endB.key)
    (ht : startB.key ≤ toD.key) :
    getLeaveDaysWithin app startB endB hs =
      if startB.key ≤ fromD.key ∧ ¬fromD.getDay = 0 ∧ ¬fromD.getDay = 6 ∧ fromD.iso ∉ hs
      then ⟨1, -1⟩ else 0 := by
  unfold getLeaveDaysWithin
  rw [hFrom, hTo]
  dsimp only
  rw [hHalf]
  by_cases c1 : fromD.key < startB.key
  · rw [if_pos c1]
    have hni : ¬(if endB.key < toD.key then endB else toD).key < startB.key := by
      split <;> omega
    rw [if_neg hni]
    simp only [if_true]
    have hne : ¬startB.key = fromD.key := by omega
    rw [if_neg hne]
    rw [if_neg (by omega : ¬(startB.key ≤ fromD.key ∧ ¬fromD.getDay = 0 ∧
      ¬fromD.getDay = 6 ∧ fromD.iso ∉ hs))]
  · rw [if_neg c1]
    have hni : ¬(if endB.key < toD.key then endB else toD).key < fromD.key := by
      split <;> omega
    rw [if_neg hni]
    simp only [if_true]
    by_cases hwd : fromD.getDay = 0 ∨ fromD.getDay = 6 ∨ fromD.iso ∈ hs
    · rw [if_pos hwd]
      rw [if_neg (by tauto : ¬(startB.key ≤ fromD.key ∧ ¬fromD.getDay = 0 ∧
        ¬fromD.getDay = 6 ∧ fromD.iso ∉ hs))]
    · rw [if_neg hwd]
      rw [if_pos (by push_neg at hwd; exact ⟨by omega, hwd.1, hwd.2.1, hwd.2.2⟩)]

/-- Claim C4: an approved half-day application contributes exactly 0.5 days
precisely when its start, clipped to the consumption window, equals the
original start date and that date is neither a Saturday nor a Sunday nor in
the holiday set; in every other case it contributes exactly 0.  (Hypotheses:
the application is well-formed with `from` at most `to`, as the data model
requires, and the consumption window is non-empty.) -/
theorem claim_C4_half_day (app : LeaveApplication) (cycleRange : CycleRange)
    (asOfDate : JsDate) (holidays : List HolidayEntry) (fromD toD : JsDate)
    (hHalf : app.halfDay = true) (hStatus : app.status = "approved")
    (hType : app.type ∈ SUPPORTED_LEAVE_TYPES)
    (hFrom : app.fromDate = some fromD) (hTo : app.toDate = some toD)
    (hOrder : fromD.key ≤ toD.key)
    (hWindow : (startOfDay cycleRange.start).key ≤
      (startOfDay (if cycleRange.stop.key < (startOfDay asOfDate).key then cycleRange.stop
        else startOfDay asOfDate)).key) :
    (calculateLeaveTakenForEmployee app.employeeId [app] cycleRange asOfDate holidays).get
        app.type =
      (let startB := startOfDay cycleRange.start
       let endB := startOfDay (if cycleRange.stop.key < (startOfDay asOfDate).key
         then cycleRange.stop else startOfDay asOfDate)
       let low := if endB.key < fromD.key then endB else fromD
       let clippedStart := if low.key < startB.key then startB else low
       if clippedStart.key = fromD.key ∧ ¬fromD.getDay = 0 ∧ ¬fromD.getDay = 6 ∧
           fromD.iso ∉ buildHolidaySet holidays
       then ⟨1, -1⟩ else 0) := by
  have hT2 : app.type = "annual" ∨ app.type = "casual" ∨ app.type = "medical" := by
    simpa [SUPPORTED_LEAVE_TYPES] using hType
  unfold calculateLeaveTakenForEmployee
  simp only [List.foldl_cons, List.foldl_nil]
  set sB := startOfDay cycleRange.start with hsB
  set eB := startOfDay (if cycleRange.stop.key < (startOfDay asOfDate).key
    then cycleRange.stop else startOfDay asOfDate) with heB
  have hWse : sB.key ≤ eB.key := hWindow
  rw [if_neg (by simp : ¬¬True)]
  rw [hStatus]
  rw [if_neg (by decide : ¬¬strToLower "approved" = "approved")]
  rw [if_neg (by simp [hType] : ¬app.type ∉ SUPPORTED_LEAVE_TYPES)]
  rw [hFrom, hTo]
  dsimp only
  by_cases hg : toD.key < sB.key ∨ eB.key < fromD.key
  · rw [if_pos hg]
    have hget : ({ annual := 0, casual := 0, medical := 0 } : LeaveTotals).get app.type = 0 := by
      rcases hT2 with h | h | h <;> rw [h] <;> rfl
    rw [hget]
    refine Eq.symm (if_neg ?_)
    intro hcond
    have h1 := hcond.1
    rcases hg with hga | hgb
    · by_cases hl : eB.key < fromD.key
      · rw [if_pos hl, if_neg (by omega : ¬eB.key < sB.key)] at h1
        omega
      · rw [if_neg hl] at h1
        by_cases hfs : fromD.key < sB.key
        · rw [if_pos hfs] at h1; omega
        · rw [if_neg hfs] at h1; omega
    · rw [if_pos hgb, if_neg (by omega : ¬eB.key < sB.key)] at h1
      omega
  · rw [if_neg hg]
    push_neg at hg
    rw [getLeaveDaysWithin_halfDay app sB eB (buildHolidaySet holidays) fromD toD hHalf hFrom
      hTo hOrder hWse hg.2 hg.1]
    rw [if_neg (by omega : ¬eB.key < fromD.key)]
    by_cases hC : sB.key ≤ fromD.key
    · rw [if_neg (by omega : ¬fromD.key < sB.key)]
      by_cases hW : ¬fromD.getDay = 0 ∧ ¬fromD.getDay = 6 ∧
          fromD.iso ∉ buildHolidaySet holidays
      · rw [if_pos ⟨hC, hW.1, hW.2.1, hW.2.2⟩, if_pos ⟨rfl, hW.1, hW.2.1, hW.2.2⟩]
        rcases hT2 with h | h | h <;> rw [h] <;> decide
      · rw [if_neg (fun hc => hW ⟨hc.2.1, hc.2.2.1, hc.2.2.2⟩),
          if_neg (fun hc => hW ⟨hc.2.1, hc.2.2.1, hc.2.2.2⟩)]
        rcases hT2 with h | h | h <;> rw [h] <;> decide
    · rw [if_neg (fun hc => hC hc.1),
        if_pos (by omega : fromD.key < sB.key)]
      rw [if_neg (fun hc => absurd hc.1 (by omega))]
      rcases hT2 with h | h | h <;> rw [h] <;> decide

/-- Claim C4 witness: a half-day on Monday 2025-03-10, inside the 2024/25
cycle, scores exactly half a day. -/
theorem claim_C4_half_day_witness :
    (calculateLeaveTakenForEmployee halfDayMondayApp.employeeId [halfDayMondayApp]
      (getCurrentCycleRange asOf20250630) asOf20250630 []).get halfDayMondayApp.type =
      ⟨1, -1⟩ :=
  (claim_C4_half_day halfDayMondayApp (getCurrentCycleRange asOf20250630) asOf20250630 []
    ⟨2025, 2, 10, 0⟩ ⟨2025, 2, 10, 0⟩ rfl rfl (by decide) rfl rfl (by decide)
    (by decide)).trans (by decide)
